import Mathlib

/-!
# AthenaCreditScore — verification of the hybrid scoring pipeline

Shallow embedding of the core of the AthenaCreditScore service:
the rule-based base scorer (`scoring/base_scorer.py`), the bureau-metric
extractor (`scoring/crb_extractor.py`), the PDO calibration transform
(`scoring/pdo_transformer.py`), the hybrid orchestrator and its
score-to-PD logistic (`scoring/hybrid_scorer.py`), the qualitative
adjuster contract (`llm/client.py`), the champion/challenger governance
operations (`mlops/mlflow_client.py`), and the feature-attribution
ranking (`mlops/shap_analyzer.py`).

Python floats are modelled as real numbers; Python's `round` builtin
(banker's rounding: ties go to the even neighbour) is modelled by
`pyRound`/`pyRoundTo` below.  Exceptions raised by external services are
modelled as `Option`/sum results.  Dates are modelled by a linear day
index together with an opaque `"%Y-%m"` month label, and `date.today()`
is passed explicitly as a parameter.
-/

namespace Athena

/-- Python's `round(x)` builtin: round half to even (banker's rounding).
Mathlib's `round` rounds halves up, so ties are handled explicitly. -/
def pyRound {α : Type*} [LinearOrderedField α] [FloorRing α] [DecidableEq α]
    (x : α) : ℤ :=
  if x - ⌊x⌋ = 1 / 2 then (if Even ⌊x⌋ then ⌊x⌋ else ⌊x⌋ + 1) else round x

/-- Python's `round(x, n)` for `n` decimal digits. -/
def pyRoundTo {α : Type*} [LinearOrderedField α] [FloorRing α] [DecidableEq α]
    (n : ℕ) (x : α) : α :=
  (pyRound (x * 10 ^ n) : α) / 10 ^ n

section PyRoundLemmas

variable {α : Type*} [LinearOrderedField α] [FloorRing α] [DecidableEq α]

theorem pyRound_intCast (n : ℤ) : pyRound (n : α) = n := by
  simp [pyRound, Int.floor_intCast]

theorem abs_pyRound_sub (x : α) : |(pyRound x : α) - x| ≤ 1 / 2 := by
  unfold pyRound
  split
  · next h =>
    have hfl : (⌊x⌋ : α) = x - 1 / 2 := by linarith [h]
    split
    · rw [show ((⌊x⌋ : ℤ) : α) - x = -(1 / 2) by rw [hfl]; ring]
      rw [abs_neg, abs_of_pos] <;> norm_num
    · rw [show ((⌊x⌋ + 1 : ℤ) : α) - x = 1 / 2 by push_cast; rw [hfl]; ring]
      rw [abs_of_pos] <;> norm_num
  · have := abs_sub_round x
    rwa [abs_sub_comm] at this

theorem pyRound_le (x : α) : (pyRound x : α) ≤ x + 1 / 2 := by
  have := abs_pyRound_sub x
  rw [abs_le] at this
  linarith [this.2]

theorem le_pyRound (x : α) : x - 1 / 2 ≤ (pyRound x : α) := by
  have := abs_pyRound_sub x
  rw [abs_le] at this
  linarith [this.1]

theorem pyRound_mono {x y : α} (h : x ≤ y) : pyRound x ≤ pyRound y := by
  by_contra hlt
  push_neg at hlt
  have h1 : (pyRound y : α) + 1 ≤ (pyRound x : α) := by
    exact_mod_cast Int.add_one_le_iff.mpr hlt
  have h2 : (pyRound x : α) ≤ x + 1 / 2 := pyRound_le x
  have h3 : y - 1 / 2 ≤ (pyRound y : α) := le_pyRound y
  have hxy : x = y := le_antisymm h (by linarith)
  rw [hxy] at hlt
  exact lt_irrefl _ hlt

/-- `pyRound` shifted by an even integer. -/
theorem pyRound_add_even (x : α) (m : ℤ) :
    pyRound (x + (2 * m : ℤ)) = pyRound x + 2 * m := by
  unfold pyRound
  rw [Int.floor_add_int, round_add_int]
  have hfr : x + ((2 * m : ℤ) : α) - ((⌊x⌋ + 2 * m : ℤ) : α) = x - ⌊x⌋ := by
    push_cast; ring
  rw [hfr]
  have hev : Even (⌊x⌋ + 2 * m) ↔ Even ⌊x⌋ := by
    constructor
    · intro h; have := h.sub (even_two_mul m); simpa using this
    · intro h; exact h.add (even_two_mul m)
  split
  · by_cases he : Even ⌊x⌋
    · rw [if_pos (hev.mpr he), if_pos he]
    · rw [if_neg (fun hc => he (hev.mp hc)), if_neg he]; ring
  · rfl

/-- When `x` lies in the half-open window `[n - 1/2, n + 1/2)` around an
even integer `n`, banker's rounding yields `n` (the tie at `n - 1/2`
also resolves to `n` because `n` is the even neighbour). -/
theorem pyRound_eq_of_even {x : α} {n : ℤ} (hn : Even n)
    (h1 : (n : α) - 1 / 2 ≤ x) (h2 : x < (n : α) + 1 / 2) :
    pyRound x = n := by
  unfold pyRound
  split
  · next hhalf =>
    have hfl : (⌊x⌋ : α) = x - 1 / 2 := by linarith [hhalf]
    have hlow : ((n : ℤ) : α) - 1 ≤ (⌊x⌋ : α) := by rw [hfl]; linarith
    have hhigh : (⌊x⌋ : α) < (n : α) := by rw [hfl]; linarith
    have hfln : ⌊x⌋ = n - 1 := by
      have l1 : n - 1 ≤ ⌊x⌋ := by exact_mod_cast (by push_cast; linarith : ((n - 1 : ℤ) : α) ≤ (⌊x⌋ : α))
      have l2 : ⌊x⌋ < n := by exact_mod_cast hhigh
      omega
    rw [hfln]
    have : ¬ Even (n - 1) := by
      rcases hn with ⟨k, hk⟩
      intro ⟨j, hj⟩
      omega
    rw [if_neg this]
    omega
  · have : round x = ⌊x + 1 / 2⌋ := round_eq x
    rw [this]
    rw [Int.floor_eq_iff]
    constructor
    · linarith
    · push_cast; linarith

theorem pyRoundTo_le_div {n : ℕ} {x : α} {m : ℤ}
    (h : x ≤ (m : α) / 10 ^ n) : pyRoundTo n x ≤ (m : α) / 10 ^ n := by
  have hp : (0 : α) < 10 ^ n := by positivity
  have hx : x * 10 ^ n ≤ (m : α) := (le_div_iff hp).mp h
  have h2 := pyRound_mono (y := ((m : ℤ) : α)) (by exact_mod_cast hx)
  rw [pyRound_intCast] at h2
  rw [pyRoundTo, div_le_div_iff hp hp]
  have h3 : (pyRound (x * 10 ^ n) : α) ≤ (m : α) := by exact_mod_cast h2
  nlinarith

theorem le_pyRoundTo_div {n : ℕ} {x : α} {m : ℤ}
    (h : (m : α) / 10 ^ n ≤ x) : (m : α) / 10 ^ n ≤ pyRoundTo n x := by
  have hp : (0 : α) < 10 ^ n := by positivity
  have hx : (m : α) ≤ x * 10 ^ n := (div_le_iff hp).mp h
  have h2 := pyRound_mono (x := ((m : ℤ) : α)) (by exact_mod_cast hx)
  rw [pyRound_intCast] at h2
  rw [pyRoundTo, div_le_div_iff hp hp]
  have h3 : (m : α) ≤ (pyRound (x * 10 ^ n) : α) := by exact_mod_cast h2
  nlinarith

theorem abs_pyRoundTo_sub (n : ℕ) (x : α) :
    |pyRoundTo n x - x| ≤ 1 / (2 * 10 ^ n) := by
  have hp : (0 : α) < 10 ^ n := by positivity
  have h := abs_pyRound_sub (x * 10 ^ n)
  have hrw : pyRoundTo n x - x
      = ((pyRound (x * 10 ^ n) : α) - x * 10 ^ n) / 10 ^ n := by
    rw [pyRoundTo]; field_simp; ring
  rw [hrw, abs_div, abs_of_pos hp]
  rw [div_le_div_iff hp (by positivity : (0 : α) < 2 * 10 ^ n)]
  nlinarith

theorem pyRoundTo_mono {n : ℕ} {x y : α} (h : x ≤ y) :
    pyRoundTo n x ≤ pyRoundTo n y := by
  have hp : (0 : α) < 10 ^ n := by positivity
  have h2 := pyRound_mono (mul_le_mul_of_nonneg_right h (le_of_lt hp))
  rw [pyRoundTo, pyRoundTo]
  have h3 : (pyRound (x * 10 ^ n) : α) ≤ (pyRound (y * 10 ^ n) : α) := by
    exact_mod_cast h2
  gcongr

end PyRoundLemmas

/-! ## Qualitative adjuster — `llm/client.py`

`LLMClient.get_score_adjustment` wraps the whole provider call in
`try/except`: any raised exception (network failure, malformed JSON,
non-integer `adjustment`) lands in the fallback branch.  The provider
behaviour is therefore modelled as `Option LLMRaw`: `none` is any
failing call, `some d` a call whose JSON body parsed and whose
`adjustment` field (if present) converted to an integer. -/

/-- A successfully parsed provider JSON response.  `adjustment = none`
models a JSON object without an `adjustment` key (`data.get` defaults
it to 0). -/
structure LLMRaw where
  adjustment : Option ℤ
  reasoning : List String
  raw : String

structure AdjustmentResult where
  adjustment : ℤ
  reasoning : List String
  raw : String

/-- `LLMClient.get_score_adjustment`: clamp the adjustment to
[-50, 50] on success; on any failure return the zero-adjustment
fallback with a single reasoning string.  Totality of this function is
the embedding of "never propagates an exception". -/
def get_score_adjustment : Option LLMRaw → AdjustmentResult
  | none =>
      { adjustment := 0, reasoning := ["LLM analysis unavailable."], raw := "" }
  | some d =>
      { adjustment := max (-50) (min 50 (d.adjustment.getD 0)),
        reasoning := d.reasoning,
        raw := d.raw }

/-! ## PDO transformer — `scoring/pdo_transformer.py` -/

structure PDOResult where
  pd_probability : ℝ
  score : ℤ
  band : String
  factor : ℝ
  offset : ℝ

/-- The `_BANDS` table. -/
def BANDS : List (ℤ × String) :=
  [(780, "Excellent"), (720, "Very Good"), (680, "Good"),
   (640, "Fair"), (600, "Marginal"), (0, "Poor")]

/-- `PDOTransformer._get_band`: first floor (scanning top-down) the
score reaches. -/
def get_band (score : ℤ) : String :=
  ((BANDS.find? (fun p => decide (p.1 ≤ score))).map Prod.snd).getD "Poor"

/-- `PDOTransformer.__init__` fields; env-var defaults are
`pdo=50, base_score=500, base_odds=1.0`. -/
structure PDOTransformer where
  pdo : ℝ
  base_score : ℝ
  base_odds : ℝ

noncomputable def PDOTransformer.factor (t : PDOTransformer) : ℝ :=
  t.pdo / Real.log 2

noncomputable def PDOTransformer.offset (t : PDOTransformer) : ℝ :=
  t.base_score - t.factor * Real.log t.base_odds

/-- The raw (pre-round, pre-clamp) score computed inside
`PDOTransformer.transform`. -/
noncomputable def PDOTransformer.raw_score (t : PDOTransformer) (pd_probability : ℝ) : ℝ :=
  let pd_clamped := max 1e-4 (min 0.9999 pd_probability)
  let odds := pd_clamped / (1 - pd_clamped)
  t.offset - t.factor * Real.log odds

/-- `PDOTransformer.transform`. -/
noncomputable def PDOTransformer.transform (t : PDOTransformer) (pd_probability : ℝ) :
    PDOResult :=
  let score := max 300 (min 850 (pyRound (t.raw_score pd_probability)))
  { pd_probability := pyRoundTo 6 pd_probability,
    score := score,
    band := get_band score,
    factor := pyRoundTo 4 t.factor,
    offset := pyRoundTo 4 t.offset }

/-- `PDOTransformer.pd_from_score`. -/
noncomputable def PDOTransformer.pd_from_score (t : PDOTransformer) (score : ℤ) : ℝ :=
  let odds := Real.exp ((t.offset - score) / t.factor)
  pyRoundTo 6 (odds / (1 + odds))

/-- The module-level `_pdo = PDOTransformer()` instance (default
configuration). -/
def pdoDefault : PDOTransformer := { pdo := 50, base_score := 500, base_odds := 1 }

/-! ## Score → PD logistic — `scoring/hybrid_scorer.py::_score_to_pd` -/

/-- The unrounded logistic `1 / (1 + exp(k * (score - midpoint)))` with
`k = 0.012`, `midpoint = 500`. -/
noncomputable def score_to_pd_raw (score : ℝ) : ℝ :=
  1 / (1 + Real.exp (0.012 * (score - 500)))

/-- `_score_to_pd`: the logistic, rounded to 6 decimal places. -/
noncomputable def score_to_pd (score : ℝ) : ℝ :=
  pyRoundTo 6 (score_to_pd_raw score)

/-! ## Bureau extractor — `scoring/crb_extractor.py` -/

structure NpaAccount where
  currentBalance : Option ℝ

structure DefaultHistoryAccount where
  status : String

/-- The `creditReport` object of a raw CRB JSON report.  `Option`
fields model `.get` lookups with their defaults (`... or 0` collapses
a JSON `null` and `0` to the same value, so `Option ℤ` + `getD 0` is
faithful). -/
structure CrbReport where
  bureauName : Option String
  reportDate : Option String
  bureauScore : Option ℤ
  nonPerformingAccounts : List NpaAccount
  performingAccountsWithDefault : List DefaultHistoryAccount
  enquiriesLast90Days : Option ℤ
  creditApplicationsLast12Months : Option ℤ

structure CrbMetrics where
  crb_name : String
  bureau_score : ℤ
  bureau_score_pts : ℝ
  npa_count : ℕ
  npa_outstanding : ℝ
  npa_pts : ℝ
  active_defaults : ℕ
  settled_defaults : ℕ
  default_pts : ℝ
  enquiries_90d : ℤ
  applications_12m : ℤ
  report_date : String
  crb_contribution : ℝ

/-- `extract_crb_metrics`. -/
noncomputable def extract_crb_metrics (credit_report : CrbReport) : CrbMetrics :=
  let crb_name := credit_report.bureauName.getD "Unknown"
  let report_date := credit_report.reportDate.getD "N/A"
  let bureau_score := credit_report.bureauScore.getD 0
  let bureau_score_pts : ℝ :=
    max 0 (min 100 (((bureau_score : ℝ) - 300) / 600 * 100))
  let npa_accounts := credit_report.nonPerformingAccounts
  let npa_count := npa_accounts.length
  let npa_outstanding := (npa_accounts.map (fun a => a.currentBalance.getD 0)).sum
  let npa_pts : ℝ := if npa_count = 0 then 30 else if npa_count ≤ 2 then 10 else -20
  let performing_with_default := credit_report.performingAccountsWithDefault
  let active_defaults :=
    (performing_with_default.filter
      (fun a => a.status.toUpper = "ACTIVE" || a.status.toUpper = "DELINQUENT")).length
  let settled_defaults :=
    (performing_with_default.filter
      (fun a => a.status.toUpper = "CLOSED" || a.status.toUpper = "SETTLED"
        || a.status.toUpper = "PAID")).length
  let default_pts : ℝ :=
    if active_defaults = 0 ∧ settled_defaults = 0 then 20
    else if active_defaults = 0 ∧ 0 < settled_defaults then 0
    else -30
  let enquiries_90d := credit_report.enquiriesLast90Days.getD 0
  let applications_12m := credit_report.creditApplicationsLast12Months.getD 0
  let crb_contribution : ℝ :=
    max 0 (min 150 (bureau_score_pts + npa_pts + default_pts))
  { crb_name := crb_name,
    bureau_score := bureau_score,
    bureau_score_pts := pyRoundTo 2 bureau_score_pts,
    npa_count := npa_count,
    npa_outstanding := pyRoundTo 2 npa_outstanding,
    npa_pts := npa_pts,
    active_defaults := active_defaults,
    settled_defaults := settled_defaults,
    default_pts := default_pts,
    enquiries_90d := enquiries_90d,
    applications_12m := applications_12m,
    report_date := report_date,
    crb_contribution := pyRoundTo 2 crb_contribution }

/-! ## Governance — `mlops/mlflow_client.py` -/

inductive Recommendation where
  | promote_challenger
  | keep_champion
  | rollback_challenger
deriving DecidableEq

/-- Metrics of a model's training run as recorded by the registry;
`none` models a metrics dict without the key (`.get(key, -1)` then
defaults it to `-1`). -/
structure ModelMetrics where
  ks_statistic : Option ℚ
  roc_auc : Option ℚ

structure ComparisonResult where
  ks_improvement : ℚ
  auc_improvement : ℚ
  recommendation : Recommendation

/-- The decision core of `compare_champion_challenger`, applied to the
metrics dicts fetched for the champion and challenger runs. -/
def compare_champion_challenger (champ_metrics chall_metrics : ModelMetrics) :
    ComparisonResult :=
  let champ_ks := champ_metrics.ks_statistic.getD (-1)
  let chall_ks := chall_metrics.ks_statistic.getD (-1)
  let champ_auc := champ_metrics.roc_auc.getD (-1)
  let chall_auc := chall_metrics.roc_auc.getD (-1)
  let ks_improvement : ℚ := if 0 < champ_ks then chall_ks - champ_ks else 0
  let auc_improvement : ℚ := if 0 < champ_auc then chall_auc - champ_auc else 0
  let recommendation :=
    if 0.02 ≤ ks_improvement ∨ 0.005 ≤ auc_improvement then
      Recommendation.promote_challenger
    else if ks_improvement ≤ -0.03 ∨ auc_improvement ≤ -0.01 then
      Recommendation.rollback_challenger
    else Recommendation.keep_champion
  { ks_improvement := pyRoundTo 4 ks_improvement,
    auc_improvement := pyRoundTo 4 auc_improvement,
    recommendation := recommendation }

/-- Alias state of the registered model.  At most one version holds
each alias; `retired` is the set of versions tagged `retired=true`. -/
structure RegistryState where
  champion : Option ℕ
  challenger : Option ℕ
  staging : Option ℕ
  retired : List ℕ
deriving DecidableEq

/-- `promote_challenger_to_champion`: both
`get_model_version_by_alias` calls sit inside the same `try`, so a
missing challenger *or* a missing champion raises before any mutation
and the `except` branch returns `None` with the state untouched. -/
def promote_challenger_to_champion (s : RegistryState) : Option ℕ × RegistryState :=
  match s.challenger, s.champion with
  | some challenger_mv, some champion_mv =>
      (some challenger_mv,
        { s with champion := some challenger_mv,
                 challenger := none,
                 retired := champion_mv :: s.retired })
  | _, _ => (none, s)

/-! ## Feature-attribution ranking — `mlops/shap_analyzer.py`

The SHAP matrix itself comes from the external model
(`_compute_shap`); it is an input here.  Python's `sorted(...,
key=lambda x: x[1], reverse=True)` is a stable sort by descending
second component; `List.insertionSort` with the same total preorder is
also stable, and any two stable sorts of the same list under the same
preorder coincide. -/

def TOP_K_FEATURES : ℕ := 10

noncomputable def meanList (l : List ℝ) : ℝ := l.sum / l.length

/-- `np.mean(np.abs(shap_values), axis=0)` for column `j`. -/
noncomputable def mean_abs_shap (shap_values : List (List ℝ)) (j : ℕ) : ℝ :=
  meanList (shap_values.map (fun row => |row.getD j 0|))

/-- `sorted(zip(all_keys, mean_abs_shap.tolist()), key=..., reverse=True)`. -/
noncomputable def ranked_features (all_keys : List String)
    (shap_values : List (List ℝ)) : List (String × ℝ) :=
  List.insertionSort (fun a b => b.2 ≤ a.2)
    (all_keys.enum.map (fun jk => (jk.2, mean_abs_shap shap_values jk.1)))

/-- The `feature_importances` list (values rounded to 6 decimals). -/
noncomputable def feature_importances (all_keys : List String)
    (shap_values : List (List ℝ)) : List (String × ℝ) :=
  (ranked_features all_keys shap_values).map (fun p => (p.1, pyRoundTo 6 p.2))

/-- The `top_drivers` list. -/
noncomputable def top_drivers (all_keys : List String)
    (shap_values : List (List ℝ)) : List String :=
  ((feature_importances all_keys shap_values).map Prod.fst).take TOP_K_FEATURES

/-! ## Rule-based base scorer — `scoring/base_scorer.py`

Dates are modelled by a linear day index (`day`, order-isomorphic to
`datetime.date`) plus the opaque `strftime("%Y-%m")` month label;
`date.today()` is the explicit `today` parameter.  A transaction dict's
`.get` lookups are modelled with `Option` fields. -/

structure PyDate where
  day : ℤ
  month : String

structure Tx where
  transaction_date : Option PyDate
  amount : Option ℝ
  transaction_type : Option String
  category : Option String
  balance_after : Option ℝ

inductive ScorePattern where
  | salaryDetected
  | bettingShare (pct : ℝ)
  | negativeSavings

structure BaseScoreResult where
  income_stability_score : ℝ
  avg_monthly_income_score : ℝ
  savings_rate_score : ℝ
  low_balance_score : ℝ
  transaction_diversity_score : ℝ
  base_total : ℝ
  avg_monthly_income : ℝ
  income_cv : ℝ
  avg_monthly_savings : ℝ
  low_balance_events : ℕ
  category_breakdown : List (String × ℝ)
  analysis_period_days : ℤ
  patterns : List ScorePattern

/-- Python dict update `m[k] = m.get(k, 0) + v` on an
insertion-ordered association list with distinct keys. -/
noncomputable def addToDict (m : List (String × ℝ)) (k : String) (v : ℝ) :
    List (String × ℝ) :=
  if (m.lookup k).isSome then
    m.map (fun p => if p.1 = k then (p.1, p.2 + v) else p)
  else m ++ [(k, v)]

/-- `statistics.stdev` (sample standard deviation). -/
noncomputable def stdevList (l : List ℝ) : ℝ :=
  Real.sqrt ((l.map (fun x => (x - meanList l) ^ 2)).sum / ((l.length : ℝ) - 1))

/-- `calculate_base_score`.  The source builds the three dicts in one
pass over `tx_window`; the separate folds below construct the same
dicts.  The source's first (negative-balance) computation of
`low_balance_events` is immediately overwritten by the threshold-based
count, so only the latter appears.  The string rendering of the
notable patterns is display-only and kept as constructors. -/
noncomputable def calculate_base_score (transactions : List Tx)
    (analysis_period_days : ℤ) (today : ℤ) : BaseScoreResult :=
  let cutoff := today - analysis_period_days
  let tx_window := transactions.filter (fun t =>
    match t.transaction_date with
    | some d => decide (cutoff ≤ d.day)
    | none => false)
  let month_key := fun (t : Tx) => ((t.transaction_date).map (fun d => d.month)).getD ""
  let amount := fun (t : Tx) => t.amount.getD 0
  let tx_type := fun (t : Tx) => (t.transaction_type.getD "").toUpper
  let tx_cat := fun (t : Tx) => t.category.getD "OTHER"
  let monthly_credits := tx_window.foldl
    (fun m t => if tx_type t = "CREDIT" then addToDict m (month_key t) (amount t) else m) []
  let monthly_debits := tx_window.foldl
    (fun m t => if tx_type t = "DEBIT" then addToDict m (month_key t) (amount t) else m) []
  let category_totals := tx_window.foldl
    (fun m t => if tx_type t = "DEBIT" then addToDict m (tx_cat t) (amount t) else m) []
  -- `list(monthly_credits.values()) or [0.0]`
  let monthly_income_list :=
    if monthly_credits.map Prod.snd = [] then [(0 : ℝ)] else monthly_credits.map Prod.snd
  let avg_monthly_income := meanList monthly_income_list
  let income_cv :=
    if 1 < monthly_income_list.length ∧ 0 < avg_monthly_income then
      stdevList monthly_income_list / avg_monthly_income
    else 1
  let income_stability_score : ℝ :=
    if income_cv < 0.10 then 150 else if income_cv < 0.20 then 120
    else if income_cv < 0.35 then 80 else if income_cv < 0.50 then 40 else 10
  let avg_income := if 0 < avg_monthly_income then avg_monthly_income else 1
  let threshold := avg_income * 0.10
  let low_balance_events := (tx_window.filter (fun t =>
    match t.balance_after with
    | some b => decide (b < threshold)
    | none => false)).length
  let avg_monthly_income_score : ℝ :=
    if 100000 < avg_monthly_income then 150 else if 50000 < avg_monthly_income then 120
    else if 20000 < avg_monthly_income then 80 else if 5000 < avg_monthly_income then 40
    else 10
  let total_credits := (monthly_credits.map Prod.snd).sum
  let total_debits := (monthly_debits.map Prod.snd).sum
  let net_savings := total_credits - total_debits
  let savings_rate := if 0 < total_credits then net_savings / total_credits else 0
  let avg_monthly_savings := net_savings / ((max monthly_credits.length 1 : ℕ) : ℝ)
  let savings_rate_score : ℝ :=
    if 0.30 < savings_rate then 100 else if 0.15 < savings_rate then 75
    else if 0.05 < savings_rate then 50 else if 0 ≤ savings_rate then 25 else 0
  let low_balance_score : ℝ :=
    if low_balance_events = 0 then 150 else if low_balance_events ≤ 1 then 100
    else if low_balance_events ≤ 3 then 50 else 10
  let unique_categories := category_totals.length
  let transaction_diversity_score : ℝ :=
    if 6 ≤ unique_categories then 150 else if 4 ≤ unique_categories then 100
    else if 2 ≤ unique_categories then 60 else 20
  let raw_total := income_stability_score + avg_monthly_income_score
    + savings_rate_score + low_balance_score + transaction_diversity_score
  let base_total := max 300 (min 700 (300 + raw_total / 700 * 400))
  -- `sum(category_totals.values()) or 1.0`
  let total_debit_amount :=
    if (category_totals.map Prod.snd).sum = 0 then 1 else (category_totals.map Prod.snd).sum
  let category_breakdown :=
    (List.insertionSort (fun (a b : String × ℝ) => b.2 ≤ a.2) category_totals).map
      (fun p => (p.1, pyRoundTo 1 (p.2 / total_debit_amount * 100)))
  -- `get("BETTING", 0) and ... > 3` ≡ `... > 3` since `3 > 0`
  let patterns :=
    (if 0 < (category_breakdown.lookup "SALARY").getD 0
      then [ScorePattern.salaryDetected] else [])
    ++ (if 3 < (category_breakdown.lookup "BETTING").getD 0
      then [ScorePattern.bettingShare ((category_breakdown.lookup "BETTING").getD 0)]
      else [])
    ++ (if savings_rate < 0 then [ScorePattern.negativeSavings] else [])
  { income_stability_score := income_stability_score,
    avg_monthly_income_score := avg_monthly_income_score,
    savings_rate_score := savings_rate_score,
    low_balance_score := low_balance_score,
    transaction_diversity_score := transaction_diversity_score,
    base_total := pyRoundTo 2 base_total,
    avg_monthly_income := pyRoundTo 2 avg_monthly_income,
    income_cv := pyRoundTo 4 income_cv,
    avg_monthly_savings := pyRoundTo 2 avg_monthly_savings,
    low_balance_events := low_balance_events,
    category_breakdown := category_breakdown,
    analysis_period_days := analysis_period_days,
    patterns := patterns }

/-! ## Hybrid orchestrator — `scoring/hybrid_scorer.py`

`compute_hybrid_score` awaits the qualitative adjuster; the provider's
behaviour is the explicit `llm_response` input (the prompt built by
`llm/prompts.py` is pure string assembly feeding only the provider).
An absent-or-empty bureau report (`if crb_raw_report:` — Python
falsiness) is `none`. -/

structure HybridScoreResult where
  customer_id : ℤ
  base_score : ℝ
  crb_contribution : ℝ
  llm_adjustment : ℤ
  pd_probability : ℝ
  final_score : ℤ
  score_band : String
  reasoning : List String
  crb_metrics : Option CrbMetrics
  base_result : BaseScoreResult
  llm_provider : String
  llm_model : String
  model_target : String

noncomputable def compute_hybrid_score (customer_id : ℤ) (transactions : List Tx)
    (crb_raw_report : Option CrbReport) (analysis_period_days : ℤ) (today : ℤ)
    (llm_response : Option LLMRaw) (model_target : String) : HybridScoreResult :=
  let base_result := calculate_base_score transactions analysis_period_days today
  let crb_metrics := crb_raw_report.map extract_crb_metrics
  let crb_contribution := (crb_metrics.map (fun m => m.crb_contribution)).getD 0
  let llm_resp := get_score_adjustment llm_response
  let llm_adjustment := llm_resp.adjustment
  let intermediate := base_result.base_total + crb_contribution + (llm_adjustment : ℝ)
  let pd_probability := score_to_pd intermediate
  let pdo_result := pdoDefault.transform pd_probability
  { customer_id := customer_id,
    base_score := base_result.base_total,
    crb_contribution := crb_contribution,
    llm_adjustment := llm_adjustment,
    pd_probability := pdo_result.pd_probability,
    final_score := pdo_result.score,
    score_band := pdo_result.band,
    reasoning := llm_resp.reasoning,
    crb_metrics := crb_metrics,
    base_result := base_result,
    llm_provider := "openai",
    llm_model := "gpt-4o-mini",
    model_target := model_target }

/-! ## Helper lemmas -/

theorem pyRoundTo_intCast {α : Type*} [LinearOrderedField α] [FloorRing α]
    [DecidableEq α] (n : ℕ) (m : ℤ) : pyRoundTo n ((m : ℤ) : α) = m := by
  have hp : (0 : α) < 10 ^ n := by positivity
  rw [pyRoundTo, show ((m : ℤ) : α) * 10 ^ n = ((m * 10 ^ n : ℤ) : α) by push_cast; ring,
    pyRound_intCast]
  push_cast
  field_simp

theorem pyRoundTo_zero {α : Type*} [LinearOrderedField α] [FloorRing α]
    [DecidableEq α] (n : ℕ) : pyRoundTo n (0 : α) = 0 := by
  have := pyRoundTo_intCast (α := α) n 0
  simpa using this

/-- Rounding to 2 decimals preserves the `[300, 700]` clamp. -/
theorem round2_clamp_300_700 (y : ℝ) :
    300 ≤ pyRoundTo 2 (max 300 (min 700 y))
    ∧ pyRoundTo 2 (max 300 (min 700 y)) ≤ 700 := by
  constructor
  · have h := le_pyRoundTo_div (n := 2) (m := 30000) (x := max 300 (min 700 y))
      (by push_cast; norm_num)
    calc (300 : ℝ) = ((30000 : ℤ) : ℝ) / 10 ^ 2 := by norm_num
      _ ≤ _ := h
  · have hle : max (300 : ℝ) (min 700 y) ≤ 700 :=
      max_le (by norm_num) (min_le_left _ _)
    have h := pyRoundTo_le_div (n := 2) (m := 70000) (x := max 300 (min 700 y))
      (by push_cast; norm_num [hle])
    calc pyRoundTo 2 (max (300 : ℝ) (min 700 y)) ≤ ((70000 : ℤ) : ℝ) / 10 ^ 2 := h
      _ = 700 := by norm_num

/-- Rounding to 2 decimals preserves the `[0, 150]` clamp. -/
theorem round2_clamp_0_150 (y : ℝ) :
    0 ≤ pyRoundTo 2 (max 0 (min 150 y))
    ∧ pyRoundTo 2 (max 0 (min 150 y)) ≤ 150 := by
  constructor
  · have h := le_pyRoundTo_div (n := 2) (m := 0) (x := max 0 (min 150 y))
      (by push_cast; norm_num)
    calc (0 : ℝ) = ((0 : ℤ) : ℝ) / 10 ^ 2 := by norm_num
      _ ≤ _ := h
  · have hle : max (0 : ℝ) (min 150 y) ≤ 150 :=
      max_le (by norm_num) (min_le_left _ _)
    have h := pyRoundTo_le_div (n := 2) (m := 15000) (x := max 0 (min 150 y))
      (by push_cast; norm_num [hle])
    calc pyRoundTo 2 (max (0 : ℝ) (min 150 y)) ≤ ((15000 : ℤ) : ℝ) / 10 ^ 2 := h
      _ = 150 := by norm_num

/-- The base total is always clamped into `[300, 700]`. -/
theorem base_total_bounds (transactions : List Tx) (analysis_period_days today : ℤ) :
    300 ≤ (calculate_base_score transactions analysis_period_days today).base_total
    ∧ (calculate_base_score transactions analysis_period_days today).base_total ≤ 700 :=
  round2_clamp_300_700 _

/-- The bureau contribution is always clamped into `[0, 150]`. -/
theorem crb_contribution_bounds (credit_report : CrbReport) :
    0 ≤ (extract_crb_metrics credit_report).crb_contribution
    ∧ (extract_crb_metrics credit_report).crb_contribution ≤ 150 :=
  round2_clamp_0_150 _

/-- The adjuster's output is always clamped into `[-50, 50]`. -/
theorem get_score_adjustment_bounds (resp : Option LLMRaw) :
    -50 ≤ (get_score_adjustment resp).adjustment
    ∧ (get_score_adjustment resp).adjustment ≤ 50 := by
  cases resp with
  | none => exact ⟨by decide, by decide⟩
  | some d =>
      refine ⟨le_max_left _ _, ?_⟩
      show max (-50) (min 50 (d.adjustment.getD 0)) ≤ 50
      exact max_le (by norm_num) (min_le_left _ _)

/-! ## Claim theorems -/

/-- C4 counterexample: with an absent champion baseline (KS and AUC
recorded as −1), the code zeroes both improvements and keeps the
champion, whereas the claim's unconditional
`ks_improvement = challenger.ks − champion.ks` (= 1.5 ≥ 0.02 here)
would mandate promotion. -/
theorem c4_counterexample :
    (compare_champion_challenger ⟨some (-1), some (-1)⟩
        ⟨some (1/2), some (1/2)⟩).recommendation = Recommendation.keep_champion
    ∧ (0.02 : ℚ) ≤ (1/2 : ℚ) - (-1) := by
  constructor
  · norm_num [compare_champion_challenger]
  · norm_num

/-- C4 (amended): whenever the champion's recorded KS and AUC are both
positive, `compare_champion_challenger` computes the improvements as
challenger-minus-champion differences (reported rounded to 4 decimals)
and recommends `promote_challenger` if `ks_improvement ≥ 0.02` OR
`auc_improvement ≥ 0.005`, otherwise `rollback_challenger` if
`ks_improvement ≤ −0.03` OR `auc_improvement ≤ −0.01`, otherwise
`keep_champion`, with the promote branch evaluated first. -/
theorem c4_compare_decision (champ chall : ModelMetrics)
    (hks : 0 < champ.ks_statistic.getD (-1))
    (hauc : 0 < champ.roc_auc.getD (-1)) :
    (compare_champion_challenger champ chall).ks_improvement
        = pyRoundTo 4 (chall.ks_statistic.getD (-1) - champ.ks_statistic.getD (-1))
    ∧ (compare_champion_challenger champ chall).auc_improvement
        = pyRoundTo 4 (chall.roc_auc.getD (-1) - champ.roc_auc.getD (-1))
    ∧ (compare_champion_challenger champ chall).recommendation
        = (if 0.02 ≤ chall.ks_statistic.getD (-1) - champ.ks_statistic.getD (-1)
              ∨ 0.005 ≤ chall.roc_auc.getD (-1) - champ.roc_auc.getD (-1) then
            Recommendation.promote_challenger
          else if chall.ks_statistic.getD (-1) - champ.ks_statistic.getD (-1) ≤ -0.03
              ∨ chall.roc_auc.getD (-1) - champ.roc_auc.getD (-1) ≤ -0.01 then
            Recommendation.rollback_challenger
          else Recommendation.keep_champion) := by
  unfold compare_champion_challenger
  simp only [if_pos hks, if_pos hauc]
  exact ⟨trivial, trivial, trivial⟩

/-- C4 witness: KS 0.50 → 0.53 (improvement 0.03 ≥ 0.02) promotes the
challenger. -/
theorem c4_witness :
    (0 : ℚ) < (ModelMetrics.mk (some 0.5) (some 0.7)).ks_statistic.getD (-1)
    ∧ (0 : ℚ) < (ModelMetrics.mk (some 0.5) (some 0.7)).roc_auc.getD (-1)
    ∧ (compare_champion_challenger ⟨some 0.5, some 0.7⟩
        ⟨some 0.53, some 0.7⟩).recommendation = Recommendation.promote_challenger := by
  refine ⟨by norm_num, by norm_num, ?_⟩
  have h := c4_compare_decision ⟨some 0.5, some 0.7⟩ ⟨some 0.53, some 0.7⟩
    (by norm_num) (by norm_num)
  rw [h.2.2]
  norm_num

/-- C5: the qualitative adjuster never raises (the embedding of every
provider behaviour, including raised exceptions and malformed
responses, is total); the returned adjustment is always clamped to
[−50, 50], and any failure yields adjustment 0 with the single
fallback reasoning string. -/
theorem c5_adjuster_contract (resp : Option LLMRaw) :
    -50 ≤ (get_score_adjustment resp).adjustment
    ∧ (get_score_adjustment resp).adjustment ≤ 50
    ∧ (resp = none →
        (get_score_adjustment resp).adjustment = 0
        ∧ (get_score_adjustment resp).reasoning = ["LLM analysis unavailable."]) := by
  cases resp with
  | none => exact ⟨by decide, by decide, fun _ => ⟨rfl, rfl⟩⟩
  | some d =>
      refine ⟨le_max_left _ _, ?_, by simp⟩
      show max (-50) (min 50 (d.adjustment.getD 0)) ≤ 50
      exact max_le (by norm_num) (min_le_left _ _)

/-- C5 witness: a failed provider call returns the zero-adjustment
fallback. -/
theorem c5_witness :
    ((none : Option LLMRaw) = none)
    ∧ (get_score_adjustment none).adjustment = 0
    ∧ (get_score_adjustment none).reasoning = ["LLM analysis unavailable."] :=
  ⟨rfl, ((c5_adjuster_contract none).2.2 rfl).1, ((c5_adjuster_contract none).2.2 rfl).2⟩

/-- C7 counterexample: a state with a challenger (version 7) but no
champion returns the no-op signal `None` even though a challenger
exists, contradicting "returns None if and only if no challenger
exists". -/
theorem c7_counterexample :
    (promote_challenger_to_champion ⟨none, some 7, none, []⟩).1 = none
    ∧ (RegistryState.mk none (some 7) none []).challenger ≠ none := by
  exact ⟨rfl, by simp⟩

/-- C7 (amended): `promote_challenger_to_champion` returns the no-op
signal (None, state unchanged) if and only if no challenger *or no
champion* exists; when both exist it atomically moves the challenger
to the champion alias, tags the prior champion retired, clears the
challenger slot, and returns the promoted version. -/
theorem c7_promotion (s : RegistryState) :
    ((promote_challenger_to_champion s).1 = none
        ↔ s.challenger = none ∨ s.champion = none)
    ∧ ((promote_challenger_to_champion s).1 = none
        → (promote_challenger_to_champion s).2 = s)
    ∧ (∀ ch cm, s.challenger = some ch → s.champion = some cm →
        promote_challenger_to_champion s
          = (some ch, { s with champion := some ch, challenger := none,
                               retired := cm :: s.retired })) := by
  obtain ⟨champ, chall, st, ret⟩ := s
  unfold promote_challenger_to_champion
  cases chall <;> cases champ <;> simp

/-- C7 witness: champion 1 and challenger 2 ⇒ version 2 promoted,
version 1 tagged retired, challenger slot cleared. -/
theorem c7_witness :
    (RegistryState.mk (some 1) (some 2) none []).challenger = some 2
    ∧ (RegistryState.mk (some 1) (some 2) none []).champion = some 1
    ∧ promote_challenger_to_champion ⟨some 1, some 2, none, []⟩
        = (some 2, ⟨some 2, none, none, [1]⟩) :=
  ⟨rfl, rfl, (c7_promotion ⟨some 1, some 2, none, []⟩).2.2 2 1 rfl rfl⟩

/-- C10: when the champion's recorded metrics are absent or
non-positive (the `.get(..., -1)` defaults), both improvements are
treated as 0, so the comparison recommends `keep_champion` for every
possible challenger metric values. -/
theorem c10_no_baseline_keeps_champion (champ chall : ModelMetrics)
    (hks : champ.ks_statistic.getD (-1) ≤ 0)
    (hauc : champ.roc_auc.getD (-1) ≤ 0) :
    (compare_champion_challenger champ chall).recommendation
        = Recommendation.keep_champion := by
  unfold compare_champion_challenger
  simp only [if_neg (not_lt.mpr hks), if_neg (not_lt.mpr hauc)]
  norm_num

/-- C10 witness: absent champion metrics and a strong challenger still
keep the champion. -/
theorem c10_witness :
    (ModelMetrics.mk none none).ks_statistic.getD (-1) ≤ 0
    ∧ (ModelMetrics.mk none none).roc_auc.getD (-1) ≤ 0
    ∧ (compare_champion_challenger ⟨none, none⟩ ⟨some 0.9, some 0.99⟩).recommendation
        = Recommendation.keep_champion :=
  ⟨by norm_num, by norm_num,
    c10_no_baseline_keeps_champion ⟨none, none⟩ ⟨some 0.9, some 0.99⟩
      (by norm_num) (by norm_num)⟩

/-- C8: an empty transaction list yields worst-case stability and
income sub-scores of 10, zero average monthly income, and a base total
still floored at 300. -/
theorem c8_empty_transaction_list (analysis_period_days today : ℤ) :
    (calculate_base_score [] analysis_period_days today).income_stability_score = 10
    ∧ (calculate_base_score [] analysis_period_days today).avg_monthly_income_score = 10
    ∧ (calculate_base_score [] analysis_period_days today).avg_monthly_income = 0
    ∧ 300 ≤ (calculate_base_score [] analysis_period_days today).base_total := by
  have hmean : meanList [(0 : ℝ)] = 0 := by simp [meanList]
  refine ⟨?_, ?_, ?_, (base_total_bounds [] analysis_period_days today).1⟩
  · show (if _ < (0.10 : ℝ) then (150 : ℝ) else _) = 10
    rw [if_neg, if_neg, if_neg, if_neg]
    all_goals
      simp only [List.filter_nil, List.foldl_nil, List.map_nil, eq_self_iff_true,
        if_true, hmean]
      norm_num
  · show (if (100000 : ℝ) < _ then (150 : ℝ) else _) = 10
    rw [if_neg, if_neg, if_neg, if_neg]
    all_goals
      simp only [List.filter_nil, List.foldl_nil, List.map_nil, eq_self_iff_true,
        if_true, hmean]
      norm_num
  · show pyRoundTo 2 _ = 0
    simp only [List.filter_nil, List.foldl_nil, List.map_nil, eq_self_iff_true,
      if_true, hmean]
    exact pyRoundTo_zero 2

instance : IsTotal (String × ℝ) (fun a b => b.2 ≤ a.2) :=
  ⟨fun a b => le_total b.2 a.2⟩

instance : IsTrans (String × ℝ) (fun a b => b.2 ≤ a.2) :=
  ⟨fun _ _ _ h1 h2 => le_trans h2 h1⟩

/-- C9 counterexample: two features with identical mean-absolute
attributions (matrix `[[1, 1]]`) produce a `feature_importances` list
that is *not* strictly descending — consecutive values are equal. -/
theorem c9_counterexample :
    ¬ List.Chain' (fun (x y : String × ℝ) => y.2 < x.2)
        (feature_importances ["a", "b"] [[1, 1]]) := by
  have hmean0 : mean_abs_shap [[1, 1]] 0 = 1 := by
    simp [mean_abs_shap, meanList]
  have hmean1 : mean_abs_shap [[1, 1]] 1 = 1 := by
    simp [mean_abs_shap, meanList]
  have hone : pyRoundTo 6 (1 : ℝ) = 1 := by
    have := pyRoundTo_intCast (α := ℝ) 6 1
    simpa using this
  have hlist : feature_importances ["a", "b"] [[1, 1]] = [("a", 1), ("b", 1)] := by
    unfold feature_importances ranked_features
    simp [List.enum, List.enumFrom, hmean0, hmean1, List.insertionSort,
      List.orderedInsert, hone]
  rw [hlist]
  simp

/-- C9 (amended): the `feature_importances` list is sorted in
non-increasing (weakly descending) order of mean-absolute attribution
— strictness fails only on ties — and `top_drivers` is the first
K = 10 feature names of that ranking. -/
theorem c9_ranking (all_keys : List String) (shap_values : List (List ℝ)) :
    List.Chain' (fun (x y : String × ℝ) => y.2 ≤ x.2)
        (feature_importances all_keys shap_values)
    ∧ top_drivers all_keys shap_values
        = ((feature_importances all_keys shap_values).map Prod.fst).take 10 := by
  constructor
  · have hs : List.Sorted (fun (a b : String × ℝ) => b.2 ≤ a.2)
        (ranked_features all_keys shap_values) :=
      List.sorted_insertionSort _ _
    have hp : List.Pairwise (fun (x y : String × ℝ) => y.2 ≤ x.2)
        (feature_importances all_keys shap_values) := by
      unfold feature_importances
      rw [List.pairwise_map]
      exact hs.imp (fun h => pyRoundTo_mono h)
    exact hp.chain'
  · rfl

/-! ## PDO-transform helper lemmas (default configuration) -/

theorem log_two_pos : 0 < Real.log 2 := Real.log_pos (by norm_num)

theorem pdoDefault_factor : pdoDefault.factor = 50 / Real.log 2 := rfl

theorem pdoDefault_factor_pos : 0 < pdoDefault.factor := by
  rw [pdoDefault_factor]
  positivity

theorem pdoDefault_factor_ge : (72 : ℝ) ≤ pdoDefault.factor := by
  rw [pdoDefault_factor]
  rw [le_div_iff log_two_pos]
  have := Real.log_two_lt_d9
  linarith

theorem pdoDefault_factor_mul_log_two : pdoDefault.factor * Real.log 2 = 50 := by
  rw [pdoDefault_factor]
  field_simp

theorem pdoDefault_offset : pdoDefault.offset = 500 := by
  unfold PDOTransformer.offset pdoDefault
  norm_num [Real.log_one]

theorem pd_clamp_id {p : ℝ} (h1 : 1e-4 ≤ p) (h2 : p ≤ 0.9999) :
    max 1e-4 (min 0.9999 p) = p := by
  rw [min_eq_right h2, max_eq_right h1]

theorem raw_score_eq {p : ℝ} (h1 : 1e-4 ≤ p) (h2 : p ≤ 0.9999) :
    pdoDefault.raw_score p = 500 - pdoDefault.factor * Real.log (p / (1 - p)) := by
  unfold PDOTransformer.raw_score
  rw [pd_clamp_id h1 h2, pdoDefault_offset]

theorem pyRound_int_bounds {x : ℝ} {lo hi : ℤ} (h1 : (lo : ℝ) ≤ x) (h2 : x ≤ (hi : ℝ)) :
    lo ≤ pyRound x ∧ pyRound x ≤ hi := by
  constructor
  · have ha := le_pyRound x
    have h3 : ((lo - 1 : ℤ) : ℝ) < (pyRound x : ℝ) := by push_cast; linarith
    have h4 : lo - 1 < pyRound x := by exact_mod_cast h3
    omega
  · have ha := pyRound_le x
    have h3 : (pyRound x : ℝ) < ((hi + 1 : ℤ) : ℝ) := by push_cast; linarith
    have h4 : pyRound x < hi + 1 := by exact_mod_cast h3
    omega

/-- When the raw score lies inside `[300, 850]`, the clamp in
`transform` is inactive and the final score is just the rounded raw
score. -/
theorem transform_score_eq {p : ℝ}
    (h3 : 300 ≤ pdoDefault.raw_score p) (h4 : pdoDefault.raw_score p ≤ 850) :
    (pdoDefault.transform p).score = pyRound (pdoDefault.raw_score p) := by
  have hb := @pyRound_int_bounds (pdoDefault.raw_score p) 300 850
    (by exact_mod_cast h3) (by exact_mod_cast h4)
  show max 300 (min 850 (pyRound (pdoDefault.raw_score p))) = _
  rw [min_eq_right hb.2, max_eq_right hb.1]

theorem raw_score_half : pdoDefault.raw_score (1 / 2) = 500 := by
  rw [raw_score_eq (by norm_num) (by norm_num)]
  norm_num

theorem raw_score_two_thirds : pdoDefault.raw_score (2 / 3) = 450 := by
  rw [raw_score_eq (by norm_num) (by norm_num)]
  have h : (2 / 3 : ℝ) / (1 - 2 / 3) = 2 := by norm_num
  rw [h]
  have := pdoDefault_factor_mul_log_two
  linarith

/-- C2: in the unclamped region, a PD `q` whose odds are exactly double
those of `p` scores exactly `pdo = 50` points lower (well within the
±3 rounding tolerance); and `transform(0.5)` with the default
`base_score = 500`, `base_odds = 1` scores exactly 500 (within ±2). -/
theorem c2_pdo_doubling :
    (∀ p q : ℝ, 1e-4 ≤ p → p ≤ 0.9999 → 1e-4 ≤ q → q ≤ 0.9999 →
      q / (1 - q) = 2 * (p / (1 - p)) →
      300 ≤ pdoDefault.raw_score p → pdoDefault.raw_score p ≤ 850 →
      300 ≤ pdoDefault.raw_score q → pdoDefault.raw_score q ≤ 850 →
      |(pdoDefault.transform p).score - (pdoDefault.transform q).score - 50| ≤ 3)
    ∧ |(pdoDefault.transform (1 / 2)).score - 500| ≤ 2 := by
  constructor
  · intro p q hp1 hp2 hq1 hq2 hodds hrp1 hrp2 hrq1 hrq2
    have hp0 : 0 < p := by linarith [hp1]
    have hp1' : p < 1 := by linarith [hp2]
    have hop : 0 < p / (1 - p) := div_pos hp0 (by linarith)
    have hraw : pdoDefault.raw_score q = pdoDefault.raw_score p - 50 := by
      rw [raw_score_eq hp1 hp2, raw_score_eq hq1 hq2, hodds,
        Real.log_mul (by norm_num) (ne_of_gt hop)]
      have := pdoDefault_factor_mul_log_two
      ring_nf
      nlinarith [this]
    rw [transform_score_eq hrp1 hrp2, transform_score_eq hrq1 hrq2, hraw]
    have hshift : pdoDefault.raw_score p - 50
        = pdoDefault.raw_score p + ((2 * (-25) : ℤ) : ℝ) := by push_cast; ring
    rw [hshift, pyRound_add_even]
    simp
  · have hsc : (pdoDefault.transform (1 / 2)).score = 500 := by
      rw [transform_score_eq (by rw [raw_score_half]; norm_num)
        (by rw [raw_score_half]; norm_num), raw_score_half]
      rw [show (500 : ℝ) = ((500 : ℤ) : ℝ) by norm_num, pyRound_intCast]
    rw [hsc]
    simp

/-- C2 witness: PD 1/2 (odds 1) and PD 2/3 (odds 2) score 500 and 450
— a drop of exactly 50 points. -/
theorem c2_witness :
    ((1e-4 : ℝ) ≤ 1 / 2 ∧ (1 / 2 : ℝ) ≤ 0.9999
      ∧ (1e-4 : ℝ) ≤ 2 / 3 ∧ (2 / 3 : ℝ) ≤ 0.9999
      ∧ (2 / 3 : ℝ) / (1 - 2 / 3) = 2 * ((1 / 2) / (1 - 1 / 2))
      ∧ 300 ≤ pdoDefault.raw_score (1 / 2) ∧ pdoDefault.raw_score (1 / 2) ≤ 850
      ∧ 300 ≤ pdoDefault.raw_score (2 / 3) ∧ pdoDefault.raw_score (2 / 3) ≤ 850)
    ∧ |(pdoDefault.transform (1 / 2)).score - (pdoDefault.transform (2 / 3)).score - 50| ≤ 3 := by
  have h1 : (1e-4 : ℝ) ≤ 1 / 2 := by norm_num
  have h2 : (1 / 2 : ℝ) ≤ 0.9999 := by norm_num
  have h3 : (1e-4 : ℝ) ≤ 2 / 3 := by norm_num
  have h4 : (2 / 3 : ℝ) ≤ 0.9999 := by norm_num
  have h5 : (2 / 3 : ℝ) / (1 - 2 / 3) = 2 * ((1 / 2) / (1 - 1 / 2)) := by norm_num
  have h6 : 300 ≤ pdoDefault.raw_score (1 / 2) := by rw [raw_score_half]; norm_num
  have h7 : pdoDefault.raw_score (1 / 2) ≤ 850 := by rw [raw_score_half]; norm_num
  have h8 : 300 ≤ pdoDefault.raw_score (2 / 3) := by rw [raw_score_two_thirds]; norm_num
  have h9 : pdoDefault.raw_score (2 / 3) ≤ 850 := by rw [raw_score_two_thirds]; norm_num
  exact ⟨⟨h1, h2, h3, h4, h5, h6, h7, h8, h9⟩,
    c2_pdo_doubling.1 (1 / 2) (2 / 3) h1 h2 h3 h4 h5 h6 h7 h8 h9⟩

/-! ## Logistic helper lemmas -/

theorem exp_le_inv_one_sub {x : ℝ} (h2 : x < 1) : Real.exp x ≤ 1 / (1 - x) := by
  have h1 := Real.add_one_le_exp (-x)
  have hpos : 0 < Real.exp x := Real.exp_pos x
  have hm : (1 - x) * Real.exp x ≤ Real.exp (-x) * Real.exp x :=
    mul_le_mul_of_nonneg_right (by linarith) (le_of_lt hpos)
  rw [← Real.exp_add] at hm
  simp only [neg_add_cancel, Real.exp_zero] at hm
  rw [le_div_iff (by linarith : (0 : ℝ) < 1 - x)]
  linarith

theorem score_to_pd_raw_500 : score_to_pd_raw 500 = 1 / 2 := by
  unfold score_to_pd_raw
  norm_num [Real.exp_zero]

theorem round6_half : pyRoundTo 6 ((1 : ℝ) / 2) = 1 / 2 := by
  rw [pyRoundTo, show (1 / 2 : ℝ) * 10 ^ 6 = ((500000 : ℤ) : ℝ) by norm_num,
    pyRound_intCast]
  norm_num

theorem score_to_pd_500 : score_to_pd 500 = 1 / 2 := by
  rw [score_to_pd, score_to_pd_raw_500, round6_half]

/-- C3 counterexample: `_score_to_pd` rounds the logistic to 6 decimal
places, so the nearby scores 500 and 500 + 10⁻⁹ both map to PD
0.500000 — strict monotonicity fails. -/
theorem c3_counterexample :
    (500 : ℝ) < 500 + 1 / 1000000000
    ∧ ¬ (score_to_pd (500 + 1 / 1000000000) < score_to_pd 500) := by
  refine ⟨by norm_num, ?_⟩
  have harg : (0.012 : ℝ) * (500 + 1 / 1000000000 - 500) = 0.012 / 1000000000 := by
    ring
  set e := Real.exp (0.012 * (500 + 1 / 1000000000 - 500)) with he_def
  have he1 : 1 < e := by
    rw [he_def, harg, show (1 : ℝ) = Real.exp 0 by rw [Real.exp_zero]]
    exact Real.exp_lt_exp.mpr (by norm_num)
  have he2 : e ≤ 1.000002 := by
    rw [he_def, harg]
    calc Real.exp (0.012 / 1000000000) ≤ 1 / (1 - 0.012 / 1000000000) :=
        exp_le_inv_one_sub (by norm_num)
      _ ≤ 1.000002 := by norm_num
  have hepos : (0 : ℝ) < 1 + e := by linarith [Real.exp_pos (0.012 * (500 + 1 / 1000000000 - 500))]
  have hub : score_to_pd_raw (500 + 1 / 1000000000) < 1 / 2 := by
    unfold score_to_pd_raw
    rw [← he_def, div_lt_div_iff hepos (by norm_num : (0 : ℝ) < 2)]
    linarith
  have hlb : (0.4999995 : ℝ) ≤ score_to_pd_raw (500 + 1 / 1000000000) := by
    unfold score_to_pd_raw
    rw [← he_def, le_div_iff hepos]
    nlinarith
  have hround : score_to_pd (500 + 1 / 1000000000) = 1 / 2 := by
    rw [score_to_pd, pyRoundTo]
    have heq : pyRound (score_to_pd_raw (500 + 1 / 1000000000) * 10 ^ 6) = 500000 := by
      apply pyRound_eq_of_even (n := 500000) (by decide)
      · push_cast; nlinarith
      · push_cast; nlinarith
    rw [heq]
    norm_num
  rw [hround, score_to_pd_500]
  exact lt_irrefl _

/-- C3 (amended): the unrounded logistic is strictly decreasing in the
intermediate score; after the source's 6-decimal rounding the map is
(weakly) antitone; and the midpoint score 500 maps to PD exactly
0.50. -/
theorem c3_monotone :
    (∀ s1 s2 : ℝ, s1 < s2 → score_to_pd_raw s2 < score_to_pd_raw s1)
    ∧ (∀ s1 s2 : ℝ, s1 ≤ s2 → score_to_pd s2 ≤ score_to_pd s1)
    ∧ score_to_pd 500 = 1 / 2 := by
  have hstrict : ∀ s1 s2 : ℝ, s1 < s2 → score_to_pd_raw s2 < score_to_pd_raw s1 := by
    intro s1 s2 h
    unfold score_to_pd_raw
    have h1 : Real.exp (0.012 * (s1 - 500)) < Real.exp (0.012 * (s2 - 500)) :=
      Real.exp_lt_exp.mpr (by linarith)
    have hp1 : (0 : ℝ) < 1 + Real.exp (0.012 * (s1 - 500)) := by
      linarith [Real.exp_pos (0.012 * (s1 - 500))]
    have hp2 : (0 : ℝ) < 1 + Real.exp (0.012 * (s2 - 500)) := by
      linarith [Real.exp_pos (0.012 * (s2 - 500))]
    rw [div_lt_div_iff hp2 hp1]
    linarith
  refine ⟨hstrict, ?_, score_to_pd_500⟩
  intro s1 s2 h
  rcases eq_or_lt_of_le h with rfl | hlt
  · exact le_refl _
  · exact pyRoundTo_mono (le_of_lt (hstrict s1 s2 hlt))

/-- C3 witness: 400 < 600, and both the unrounded and the rounded maps
order their PDs accordingly. -/
theorem c3_witness :
    ((400 : ℝ) < 600 ∧ score_to_pd_raw 600 < score_to_pd_raw 400)
    ∧ ((400 : ℝ) ≤ 600 ∧ score_to_pd 600 ≤ score_to_pd 400) :=
  ⟨⟨by norm_num, c3_monotone.1 400 600 (by norm_num)⟩,
    ⟨by norm_num, c3_monotone.2.1 400 600 (by norm_num)⟩⟩

/-! ## Sigmoid helper lemmas (for the score → PD inverse) -/

/-- `exp x / (1 + exp x)`: the shape shared by `pd_from_score`'s
odds-to-probability step. -/
noncomputable def sigmoidExp (x : ℝ) : ℝ := Real.exp x / (1 + Real.exp x)

theorem sigmoidExp_log_odds {p : ℝ} (h0 : 0 < p) (h1 : p < 1) :
    sigmoidExp (Real.log (p / (1 - p))) = p := by
  unfold sigmoidExp
  have hne : (1 : ℝ) - p ≠ 0 := ne_of_gt (by linarith)
  rw [Real.exp_log (div_pos h0 (by linarith))]
  field_simp

theorem pd_from_score_eq (s : ℤ) :
    pdoDefault.pd_from_score s
      = pyRoundTo 6 (sigmoidExp ((500 - (s : ℝ)) / pdoDefault.factor)) := by
  unfold PDOTransformer.pd_from_score sigmoidExp
  rw [pdoDefault_offset]

theorem sigmoidExp_diff_le {a b : ℝ} (hab : a ≤ b) (hd : b - a ≤ 1) :
    sigmoidExp b - sigmoidExp a ≤ 3 * (b - a) / 4 := by
  have hea := Real.exp_pos a
  have heb := Real.exp_pos b
  have hd0 : 0 ≤ b - a := by linarith
  have heq : sigmoidExp b - sigmoidExp a
      = (Real.exp b - Real.exp a) / ((1 + Real.exp a) * (1 + Real.exp b)) := by
    unfold sigmoidExp
    field_simp
    ring
  have hexp_d : Real.exp (b - a) ≤ 3 := by
    calc Real.exp (b - a) ≤ Real.exp 1 := Real.exp_le_exp.mpr hd
      _ ≤ 3 := by have := Real.exp_one_lt_d9; linarith
  have hsub : Real.exp (b - a) - 1 ≤ (b - a) * Real.exp (b - a) := by
    have h3 : (1 - (b - a)) ≤ Real.exp (-(b - a)) := by
      have := Real.add_one_le_exp (-(b - a)); linarith
    have h2 : (1 - (b - a)) * Real.exp (b - a) ≤ 1 := by
      calc (1 - (b - a)) * Real.exp (b - a)
          ≤ Real.exp (-(b - a)) * Real.exp (b - a) :=
            mul_le_mul_of_nonneg_right h3 (le_of_lt (Real.exp_pos _))
        _ = 1 := by rw [← Real.exp_add]; simp
    nlinarith
  have hnum : Real.exp b - Real.exp a ≤ 3 * (b - a) * Real.exp a := by
    have hba : Real.exp b = Real.exp a * Real.exp (b - a) := by
      rw [← Real.exp_add]; ring_nf
    rw [hba]
    have hr : Real.exp a * Real.exp (b - a) - Real.exp a
        = Real.exp a * (Real.exp (b - a) - 1) := by ring
    rw [hr]
    calc Real.exp a * (Real.exp (b - a) - 1)
        ≤ Real.exp a * ((b - a) * Real.exp (b - a)) :=
          mul_le_mul_of_nonneg_left hsub (le_of_lt hea)
      _ ≤ Real.exp a * ((b - a) * 3) := by
          apply mul_le_mul_of_nonneg_left _ (le_of_lt hea)
          exact mul_le_mul_of_nonneg_left hexp_d hd0
      _ = 3 * (b - a) * Real.exp a := by ring
  have hden : 4 * Real.exp a ≤ (1 + Real.exp a) * (1 + Real.exp b) := by
    have hmono : Real.exp a ≤ Real.exp b := Real.exp_le_exp.mpr hab
    nlinarith [sq_nonneg (1 - Real.exp a)]
  have hfinal : 3 * (b - a) * Real.exp a
      ≤ 3 * (b - a) / 4 * ((1 + Real.exp a) * (1 + Real.exp b)) := by
    have h0 : 0 ≤ 3 * (b - a) / 4 := by linarith
    calc 3 * (b - a) * Real.exp a = 3 * (b - a) / 4 * (4 * Real.exp a) := by ring
      _ ≤ 3 * (b - a) / 4 * ((1 + Real.exp a) * (1 + Real.exp b)) :=
          mul_le_mul_of_nonneg_left hden h0
  rw [heq, div_le_iff (by positivity)]
  linarith

theorem sigmoidExp_mono {a b : ℝ} (h : a ≤ b) : sigmoidExp a ≤ sigmoidExp b := by
  unfold sigmoidExp
  have hea := Real.exp_pos a
  have heb := Real.exp_pos b
  have hab : Real.exp a ≤ Real.exp b := Real.exp_le_exp.mpr h
  rw [div_le_div_iff (by linarith) (by linarith)]
  nlinarith

theorem sigmoidExp_abs_diff {a b : ℝ} (hd : |a - b| ≤ 1) :
    |sigmoidExp a - sigmoidExp b| ≤ 3 * |a - b| / 4 := by
  rcases le_total a b with h | h
  · have h1 : sigmoidExp a ≤ sigmoidExp b := sigmoidExp_mono h
    have h2 : b - a ≤ 1 := by
      have := abs_le.mp hd
      linarith [this.1]
    have h3 := sigmoidExp_diff_le h h2
    rw [abs_sub_comm (sigmoidExp a),
      abs_of_nonneg (by linarith : (0 : ℝ) ≤ sigmoidExp b - sigmoidExp a),
      abs_sub_comm a b,
      abs_of_nonneg (by linarith : (0 : ℝ) ≤ b - a)]
    linarith
  · have h1 : sigmoidExp b ≤ sigmoidExp a := sigmoidExp_mono h
    have h2 : a - b ≤ 1 := by
      have := abs_le.mp hd
      linarith [this.2]
    have h3 := sigmoidExp_diff_le h h2
    rw [abs_of_nonneg (by linarith : (0 : ℝ) ≤ sigmoidExp a - sigmoidExp b),
      abs_of_nonneg (by linarith : (0 : ℝ) ≤ a - b)]
    linarith

/-- C6 (amended): for every PD `p` inside the clamp range
`[1e-4, 0.9999]` whose raw transformed score lies in the unclamped
region `[300, 850]`, applying `transform` and then `pd_from_score`
recovers `p` within 0.05 absolute error. -/
theorem c6_roundtrip (p : ℝ) (h1 : 1e-4 ≤ p) (h2 : p ≤ 0.9999)
    (h3 : 300 ≤ pdoDefault.raw_score p) (h4 : pdoDefault.raw_score p ≤ 850) :
    |pdoDefault.pd_from_score (pdoDefault.transform p).score - p| ≤ 0.05 := by
  have hp0 : 0 < p := by linarith
  have hp1 : p < 1 := by linarith
  have hf : 0 < pdoDefault.factor := pdoDefault_factor_pos
  have hf72 : 72 ≤ pdoDefault.factor := pdoDefault_factor_ge
  set u := Real.log (p / (1 - p)) with hu
  have hraw : pdoDefault.raw_score p = 500 - pdoDefault.factor * u := raw_score_eq h1 h2
  set s := (pdoDefault.transform p).score with hs
  have hseq : s = pyRound (pdoDefault.raw_score p) := transform_score_eq h3 h4
  have habs : |(s : ℝ) - pdoDefault.raw_score p| ≤ 1 / 2 := by
    rw [hseq]; exact abs_pyRound_sub _
  set v := (500 - (s : ℝ)) / pdoDefault.factor with hv
  have hpd : pdoDefault.pd_from_score s = pyRoundTo 6 (sigmoidExp v) :=
    pd_from_score_eq s
  have hup : sigmoidExp u = p := sigmoidExp_log_odds hp0 hp1
  have huv : |v - u| ≤ 1 / 144 := by
    have hueq : u = (500 - pdoDefault.raw_score p) / pdoDefault.factor := by
      rw [hraw]; field_simp
    have hdiff : v - u = (pdoDefault.raw_score p - (s : ℝ)) / pdoDefault.factor := by
      rw [hv, hueq]; field_simp
    rw [hdiff, abs_div, abs_of_pos hf]
    have hnum : |pdoDefault.raw_score p - (s : ℝ)| ≤ 1 / 2 := by
      rw [abs_sub_comm]; exact habs
    calc |pdoDefault.raw_score p - (s : ℝ)| / pdoDefault.factor
        ≤ (1 / 2) / pdoDefault.factor := by gcongr
      _ ≤ (1 / 2) / 72 := by gcongr
      _ = 1 / 144 := by norm_num
  have hsig : |sigmoidExp v - sigmoidExp u| ≤ 3 * |v - u| / 4 :=
    sigmoidExp_abs_diff (by linarith [huv])
  have hround : |pyRoundTo 6 (sigmoidExp v) - sigmoidExp v| ≤ 1 / (2 * 10 ^ 6) :=
    abs_pyRoundTo_sub 6 _
  rw [hpd]
  have htri : |pyRoundTo 6 (sigmoidExp v) - p|
      ≤ |pyRoundTo 6 (sigmoidExp v) - sigmoidExp v|
        + |sigmoidExp v - sigmoidExp u| + |sigmoidExp u - p| :=
    by linarith [abs_sub_le (pyRoundTo 6 (sigmoidExp v)) (sigmoidExp v) p,
      abs_sub_le (sigmoidExp v) (sigmoidExp u) p]
  have hzero : |sigmoidExp u - p| = 0 := by rw [hup]; simp
  have hnums : (1 : ℝ) / (2 * 10 ^ 6) + 3 * (1 / 144) / 4 + 0 ≤ 0.05 := by norm_num
  have hsig2 : 3 * |v - u| / 4 ≤ 3 * (1 / 144) / 4 := by linarith
  linarith

/-- C6 witness: PD 1/2 transforms to score 500 and is recovered
exactly. -/
theorem c6_witness :
    ((1e-4 : ℝ) ≤ 1 / 2 ∧ (1 / 2 : ℝ) ≤ 0.9999
      ∧ 300 ≤ pdoDefault.raw_score (1 / 2) ∧ pdoDefault.raw_score (1 / 2) ≤ 850)
    ∧ |pdoDefault.pd_from_score (pdoDefault.transform (1 / 2)).score - 1 / 2| ≤ 0.05 := by
  have h1 : (1e-4 : ℝ) ≤ 1 / 2 := by norm_num
  have h2 : (1 / 2 : ℝ) ≤ 0.9999 := by norm_num
  have h3 : 300 ≤ pdoDefault.raw_score (1 / 2) := by rw [raw_score_half]; norm_num
  have h4 : pdoDefault.raw_score (1 / 2) ≤ 850 := by rw [raw_score_half]; norm_num
  exact ⟨⟨h1, h2, h3, h4⟩, c6_roundtrip (1 / 2) h1 h2 h3 h4⟩

/-- C6 counterexample: at p = 0.9999 the raw score (≈ −164) clamps to
300, and `pd_from_score 300` returns 0.941176; the absolute error
0.058724 exceeds the claimed 0.05. -/
theorem c6_counterexample :
    ¬ (|pdoDefault.pd_from_score (pdoDefault.transform 0.9999).score - 0.9999| ≤ 0.05) := by
  have hodds : (0.9999 : ℝ) / (1 - 0.9999) = 9999 := by norm_num
  have hraw : pdoDefault.raw_score 0.9999
      = 500 - pdoDefault.factor * Real.log 9999 := by
    rw [raw_score_eq (by norm_num) (by norm_num), hodds]
  have hlog : 5 * Real.log 2 ≤ Real.log 9999 := by
    have h32 : Real.log (2 ^ 5) ≤ Real.log 9999 := by
      apply Real.log_le_log (by norm_num)
      norm_num
    rwa [Real.log_pow, Nat.cast_ofNat] at h32
  have hfl : 250 ≤ pdoDefault.factor * Real.log 9999 := by
    calc (250 : ℝ) = 5 * (pdoDefault.factor * Real.log 2) := by
          rw [pdoDefault_factor_mul_log_two]; norm_num
      _ = pdoDefault.factor * (5 * Real.log 2) := by ring
      _ ≤ pdoDefault.factor * Real.log 9999 :=
          mul_le_mul_of_nonneg_left hlog (le_of_lt pdoDefault_factor_pos)
  have hraw_le : pdoDefault.raw_score 0.9999 ≤ 250 := by rw [hraw]; linarith
  have hscore : (pdoDefault.transform 0.9999).score = 300 := by
    show max 300 (min 850 (pyRound (pdoDefault.raw_score 0.9999))) = 300
    have hle : pyRound (pdoDefault.raw_score 0.9999) ≤ 299 := by
      have h := pyRound_le (pdoDefault.raw_score 0.9999)
      have h2 : (pyRound (pdoDefault.raw_score 0.9999) : ℝ) < ((300 : ℤ) : ℝ) := by
        push_cast; linarith
      have h3 : pyRound (pdoDefault.raw_score 0.9999) < 300 := by exact_mod_cast h2
      omega
    rw [min_eq_right (by omega), max_eq_left (by omega)]
  have hv : (500 - ((300 : ℤ) : ℝ)) / pdoDefault.factor = 4 * Real.log 2 := by
    rw [pdoDefault_factor]
    rw [div_div_eq_mul_div]
    push_cast
    field_simp
    ring
  have hexp : Real.exp (4 * Real.log 2) = 16 := by
    rw [show (4 : ℝ) * Real.log 2 = ((4 : ℕ) : ℝ) * Real.log 2 by norm_num,
      Real.exp_nat_mul, Real.exp_log (by norm_num : (0 : ℝ) < 2)]
    norm_num
  have hsig : sigmoidExp (4 * Real.log 2) = 16 / 17 := by
    unfold sigmoidExp
    rw [hexp]
    norm_num
  have hround : pyRoundTo 6 ((16 : ℝ) / 17) = 941176 / 1000000 := by
    rw [pyRoundTo]
    have hpy : pyRound ((16 : ℝ) / 17 * 10 ^ 6) = 941176 := by
      apply pyRound_eq_of_even (by decide)
      · push_cast; norm_num
      · push_cast; norm_num
    rw [hpy]
    norm_num
  have hpd : pdoDefault.pd_from_score 300 = 941176 / 1000000 := by
    rw [pd_from_score_eq, hv, hsig, hround]
  rw [hscore, hpd]
  rw [abs_of_nonpos (by norm_num : (941176 / 1000000 : ℝ) - 0.9999 ≤ 0)]
  norm_num

/-! ## Bounds for the hybrid pipeline (claim C1) -/

theorem score_to_pd_raw_bounds {i : ℝ} (h1 : 250 ≤ i) (h2 : i ≤ 900) :
    1 / 150 ≤ score_to_pd_raw i ∧ score_to_pd_raw i ≤ 21 / 22 := by
  unfold score_to_pd_raw
  set t := (0.012 : ℝ) * (i - 500) with ht
  have ht1 : t ≤ 4.8 := by rw [ht]; nlinarith
  have ht2 : -3 ≤ t := by rw [ht]; nlinarith
  have hexp_pos : 0 < Real.exp t := Real.exp_pos t
  have h5 : Real.exp 5 = Real.exp 1 ^ 5 := by
    rw [show (5 : ℝ) = ((5 : ℕ) : ℝ) * 1 by norm_num, Real.exp_nat_mul]
  have h3 : Real.exp 3 = Real.exp 1 ^ 3 := by
    rw [show (3 : ℝ) = ((3 : ℕ) : ℝ) * 1 by norm_num, Real.exp_nat_mul]
  have hexp_ub : Real.exp t ≤ 149 := by
    calc Real.exp t ≤ Real.exp 5 := Real.exp_le_exp.mpr (by linarith)
      _ = Real.exp 1 ^ 5 := h5
      _ ≤ 2.7182818286 ^ 5 :=
          pow_le_pow_left (le_of_lt (Real.exp_pos 1)) (le_of_lt Real.exp_one_lt_d9) 5
      _ ≤ 149 := by norm_num
  have hexp_lb : 1 / 21 ≤ Real.exp t := by
    have h21 : Real.exp 3 ≤ 21 := by
      calc Real.exp 3 = Real.exp 1 ^ 3 := h3
        _ ≤ 2.7182818286 ^ 3 :=
            pow_le_pow_left (le_of_lt (Real.exp_pos 1)) (le_of_lt Real.exp_one_lt_d9) 3
        _ ≤ 21 := by norm_num
    calc (1 : ℝ) / 21 ≤ 1 / Real.exp 3 := by
          apply one_div_le_one_div_of_le (Real.exp_pos 3) h21
      _ = Real.exp (-3) := by rw [Real.exp_neg, one_div]
      _ ≤ Real.exp t := Real.exp_le_exp.mpr ht2
  constructor
  · rw [div_le_div_iff (by norm_num) (by linarith)]
    linarith
  · rw [div_le_div_iff (by linarith) (by norm_num)]
    linarith

theorem pd_prob_bounds {i : ℝ} (h1 : 250 ≤ i) (h2 : i ≤ 900) :
    0 < pyRoundTo 6 (score_to_pd i) ∧ pyRoundTo 6 (score_to_pd i) < 1 := by
  obtain ⟨hlo, hhi⟩ := score_to_pd_raw_bounds h1 h2
  have hr1 : |score_to_pd i - score_to_pd_raw i| ≤ 1 / (2 * 10 ^ 6) :=
    abs_pyRoundTo_sub 6 _
  have hr2 : |pyRoundTo 6 (score_to_pd i) - score_to_pd i| ≤ 1 / (2 * 10 ^ 6) :=
    abs_pyRoundTo_sub 6 _
  have ha1 := abs_le.mp hr1
  have ha2 := abs_le.mp hr2
  constructor
  · have : (0 : ℝ) < 1 / 150 - 1 / (2 * 10 ^ 6) - 1 / (2 * 10 ^ 6) := by norm_num
    linarith [ha1.1, ha2.1]
  · have : (21 : ℝ) / 22 + 1 / (2 * 10 ^ 6) + 1 / (2 * 10 ^ 6) < 1 := by norm_num
    linarith [ha1.2, ha2.2]

theorem compute_hybrid_pd_eq (customer_id : ℤ) (transactions : List Tx)
    (crb_raw_report : Option CrbReport) (analysis_period_days today : ℤ)
    (llm_response : Option LLMRaw) (model_target : String) :
    (compute_hybrid_score customer_id transactions crb_raw_report
        analysis_period_days today llm_response model_target).pd_probability
      = pyRoundTo 6 (score_to_pd
          ((calculate_base_score transactions analysis_period_days today).base_total
            + ((crb_raw_report.map extract_crb_metrics).map
                (fun m => m.crb_contribution)).getD 0
            + ((get_score_adjustment llm_response).adjustment : ℝ))) := rfl

theorem compute_hybrid_final_eq (customer_id : ℤ) (transactions : List Tx)
    (crb_raw_report : Option CrbReport) (analysis_period_days today : ℤ)
    (llm_response : Option LLMRaw) (model_target : String) :
    (compute_hybrid_score customer_id transactions crb_raw_report
        analysis_period_days today llm_response model_target).final_score
      = max 300 (min 850 (pyRound (pdoDefault.raw_score (score_to_pd
          ((calculate_base_score transactions analysis_period_days today).base_total
            + ((crb_raw_report.map extract_crb_metrics).map
                (fun m => m.crb_contribution)).getD 0
            + ((get_score_adjustment llm_response).adjustment : ℝ)))))) := rfl

/-- C1: for every pipeline input — transactions, optional bureau
report, any provider behaviour — the final score lies in [300, 850],
the base total in [300, 700], the bureau contribution in [0, 150], and
the (rounded) probability of default strictly inside (0, 1). -/
theorem c1_pipeline_bounds (customer_id : ℤ) (transactions : List Tx)
    (crb_raw_report : Option CrbReport) (analysis_period_days today : ℤ)
    (llm_response : Option LLMRaw) (model_target : String) :
    (300 ≤ (compute_hybrid_score customer_id transactions crb_raw_report
        analysis_period_days today llm_response model_target).final_score
      ∧ (compute_hybrid_score customer_id transactions crb_raw_report
        analysis_period_days today llm_response model_target).final_score ≤ 850)
    ∧ (300 ≤ (compute_hybrid_score customer_id transactions crb_raw_report
        analysis_period_days today llm_response model_target).base_score
      ∧ (compute_hybrid_score customer_id transactions crb_raw_report
        analysis_period_days today llm_response model_target).base_score ≤ 700)
    ∧ (0 ≤ (compute_hybrid_score customer_id transactions crb_raw_report
        analysis_period_days today llm_response model_target).crb_contribution
      ∧ (compute_hybrid_score customer_id transactions crb_raw_report
        analysis_period_days today llm_response model_target).crb_contribution ≤ 150)
    ∧ (0 < (compute_hybrid_score customer_id transactions crb_raw_report
        analysis_period_days today llm_response model_target).pd_probability
      ∧ (compute_hybrid_score customer_id transactions crb_raw_report
        analysis_period_days today llm_response model_target).pd_probability < 1) := by
  have hb := base_total_bounds transactions analysis_period_days today
  have ha := get_score_adjustment_bounds llm_response
  have hc : 0 ≤ ((crb_raw_report.map extract_crb_metrics).map
        (fun m => m.crb_contribution)).getD 0
      ∧ ((crb_raw_report.map extract_crb_metrics).map
        (fun m => m.crb_contribution)).getD 0 ≤ 150 := by
    cases crb_raw_report with
    | none => exact ⟨le_refl 0, by norm_num⟩
    | some rep => exact crb_contribution_bounds rep
  have hal : (-50 : ℝ) ≤ ((get_score_adjustment llm_response).adjustment : ℝ) := by
    exact_mod_cast ha.1
  have har : ((get_score_adjustment llm_response).adjustment : ℝ) ≤ 50 := by
    exact_mod_cast ha.2
  refine ⟨?_, hb, hc, ?_⟩
  · rw [compute_hybrid_final_eq]
    exact ⟨le_max_left _ _, max_le (by norm_num) (min_le_left _ _)⟩
  · rw [compute_hybrid_pd_eq]
    exact pd_prob_bounds (by linarith [hb.1, hc.1]) (by linarith [hb.2, hc.2])

end Athena
